import Mathlib

/-!
Shallow embedding of the browser chat client in `src/src/App.jsx`
(a single-file React UI that streams tokens from a `/generate_stream`
endpoint, keeps an ordered transcript of role-tagged messages, persists
two settings in localStorage, and supports cancelling the in-flight
request).

Modelling choices, all taken from the source:

* React state (`apiBase`, `token`, `input`, `messages`, `isSending`,
  `error`) plus the `abortRef` ref become the fields of `AppState`.
  `abortRef.current` is either `null` or an `AbortController`; only
  whether it is set is observable in the logic, so it is a `Bool`.
* `send` is an async function whose observable behaviour depends on the
  network: the `fetch` call can reject (with an `AbortError` or another
  error), or resolve to a response with an `ok` flag, a `status`, an
  optional body, and a stream of byte chunks that ends either normally
  (end of stream), by an abort (the pending `read` rejects with
  `AbortError` after the listed chunks were delivered), or with some
  other exception.  That environment is the `FetchOutcome` argument;
  `send` returns the resulting state together with a flag recording
  whether an HTTP request was issued at all.
* `new TextDecoder()` with `decode(value, \x7b stream: true \x7d)` is the
  WHATWG incremental UTF-8 decoder in non-fatal mode: it carries partial
  multi-byte sequences across chunk boundaries, emits U+FFFD on invalid
  input, and — because `ignoreBOM` defaults to `false` — removes a
  U+FEFF appearing as the very first decoded code point of the stream.
  `DecState`/`utf8Step` are the byte-level decoder of the Encoding
  Standard, `TDState` adds the BOM-seen flag.  Bit operations of the
  standard are written with arithmetic on `Nat` (for a byte `b` in the
  given ranges, `b AND 0x3F = b - 0x80`, `b AND 0x1F = b - 0xC0`,
  `b AND 0xF = b - 0xE0`, `b AND 0x7 = b - 0xF0`, and
  `(c << 6) OR (b AND 0x3F) = c * 64 + (b - 0x80)`).
* The `setMessages` updater in the streaming loop (lines 63–70) is
  `applyChunk`; the `while` loop over `reader.read()` is `streamLoop`.
* `resetChat` depends on the network only through the response to the
  `/reset` POST: success flag and status, or a transport error carrying
  a message; that is `ResetOutcome`.
* `useLocalStorage` splits into the lazy initial read (`loadSetting`)
  and the persisting effect (`persistSetting`); localStorage itself is a
  partial map `String → Option String`, and the possibility that a
  storage call throws is a `fails` flag on the raw operations, which
  return `Except` so that the swallowing of storage errors is explicit.
-/

/-- A transcript entry: `\x7b role, content \x7d` as built by the source
(`"user"` / `"assistant"` strings). -/
structure Msg where
  role : String
  content : String
deriving DecidableEq, Repr

/-- The React state of `App` plus the abort ref (`abortActive` models
`abortRef.current !== null`). -/
structure AppState where
  apiBase : String
  token : String
  input : String
  messages : List Msg
  isSending : Bool
  error : String
  abortActive : Bool
deriving DecidableEq, Repr

/-- `input.trim()`: remove leading and trailing whitespace. -/
def trimStr (s : String) : String :=
  ⟨((s.data.dropWhile Char.isWhitespace).reverse.dropWhile Char.isWhitespace).reverse⟩

/-- Line 26–28: `Boolean(apiBase && token && input.trim().length > 0 && !isSending)`.
A JavaScript string is truthy exactly when it is non-empty. -/
def canSend (s : AppState) : Bool :=
  s.apiBase != "" && s.token != "" && decide (0 < (trimStr s.input).length) && !s.isSending

/-! ### The incremental UTF-8 decoder (`new TextDecoder()`) -/

/-- State of the UTF-8 decoder of the Encoding Standard: the code point
being assembled, how many continuation bytes are needed and seen, and
the admissible range for the next continuation byte. -/
structure DecState where
  codePoint : Nat
  bytesNeeded : Nat
  bytesSeen : Nat
  lower : Nat
  upper : Nat
deriving DecidableEq, Repr

/-- Fresh decoder state (boundaries 0x80–0xBF). -/
def DecState.init : DecState := ⟨0, 0, 0, 0x80, 0xBF⟩

/-- One byte handled with `bytesNeeded = 0`: either ASCII, the lead byte
of a 2/3/4-byte sequence (with the special boundaries for 0xE0, 0xED,
0xF0, 0xF4), or an invalid byte producing U+FFFD (non-fatal mode). -/
def utf8Start (b : Nat) : DecState × List Nat :=
  if b ≤ 0x7F then (DecState.init, [b])
  else if b ≤ 0xC1 then (DecState.init, [0xFFFD])
  else if b ≤ 0xDF then
    ({ codePoint := b - 0xC0, bytesNeeded := 1, bytesSeen := 0,
       lower := 0x80, upper := 0xBF }, [])
  else if b ≤ 0xEF then
    ({ codePoint := b - 0xE0, bytesNeeded := 2, bytesSeen := 0,
       lower := if b = 0xE0 then 0xA0 else 0x80,
       upper := if b = 0xED then 0x9F else 0xBF }, [])
  else if b ≤ 0xF4 then
    ({ codePoint := b - 0xF0, bytesNeeded := 3, bytesSeen := 0,
       lower := if b = 0xF0 then 0x90 else 0x80,
       upper := if b = 0xF4 then 0x8F else 0xBF }, [])
  else (DecState.init, [0xFFFD])

/-- One byte of the UTF-8 decoder.  With a pending sequence, a byte out
of the admissible range emits U+FFFD and the byte is put back and
reprocessed in the fresh state (the Encoding Standard restores it to
the queue); an admissible continuation byte extends the code point and
emits it when the sequence is complete. -/
def utf8Step (st : DecState) (b : Nat) : DecState × List Nat :=
  if st.bytesNeeded = 0 then utf8Start b
  else if b < st.lower ∨ st.upper < b then
    ((utf8Start b).1, 0xFFFD :: (utf8Start b).2)
  else
    if st.bytesSeen + 1 = st.bytesNeeded then
      (DecState.init, [st.codePoint * 64 + (b - 0x80)])
    else
      ({ codePoint := st.codePoint * 64 + (b - 0x80),
         bytesNeeded := st.bytesNeeded, bytesSeen := st.bytesSeen + 1,
         lower := 0x80, upper := 0xBF }, [])

/-- `TextDecoder` state: the byte-level decoder state plus the BOM-seen
flag (`ignoreBOM` is false by default, so a U+FEFF produced as the first
code point of the stream is removed). -/
structure TDState where
  dec : DecState
  bomSeen : Bool
deriving DecidableEq, Repr

/-- A freshly constructed `TextDecoder`. -/
def TDState.init : TDState := ⟨DecState.init, false⟩

/-- BOM handling on a burst of decoded code points: once any code point
has been seen the flag is set; a U+FEFF that would be the first code
point is dropped. -/
def bomFilter (bomSeen : Bool) (cps : List Nat) : Bool × List Nat :=
  match cps with
  | [] => (bomSeen, cps)
  | c :: rest =>
    if bomSeen then (true, c :: rest)
    else if c = 0xFEFF then (true, rest)
    else (true, c :: rest)

/-- Run the decoder over a list of bytes, returning the final state and
the emitted code points. -/
def decodeBytes : TDState → List Nat → TDState × List Nat
  | st, [] => (st, [])
  | st, b :: rest =>
    let p := utf8Step st.dec b
    let q := bomFilter st.bomSeen p.2
    let r := decodeBytes ⟨p.1, q.1⟩ rest
    (r.1, q.2 ++ r.2)

/-- `decoder.decode(value, \x7b stream: true \x7d)`: decode one chunk,
carrying the decoder state, and render the emitted code points as a
string.  (The decoder only ever emits scalar values, so `Char.ofNat` is
exact here.) -/
def decodeChunk (st : TDState) (chunk : List Nat) : TDState × String :=
  ((decodeBytes st chunk).1, String.mk ((decodeBytes st chunk).2.map Char.ofNat))

/-- The successive text fragments produced by decoding a list of byte
chunks with one carried decoder, i.e. the values taken by `chunk` on
line 62 across the iterations of the streaming loop. -/
def fragments : TDState → List (List Nat) → List String
  | _, [] => []
  | st, c :: cs => (decodeChunk st c).2 :: fragments (decodeChunk st c).1 cs

/-- Concatenation of a list of strings, in order. -/
def concatAll : List String → String
  | [] => ""
  | s :: ss => s ++ concatAll ss

/-! ### The transcript update of the streaming loop -/

/-- Lines 63–70: the `setMessages` updater — copy the array and replace
its last element by an assistant entry whose content is the previous
content of the last element followed by the decoded chunk.  (On an empty
array the JavaScript would fault reading `undefined.content`; the app
never runs it on an empty transcript, and the model returns the list
unchanged in that unreachable case.) -/
def applyChunk (m : List Msg) (chunk : String) : List Msg :=
  match m.getLast? with
  | none => m
  | some last => m.dropLast ++ [⟨"assistant", last.content ++ chunk⟩]

/-- Lines 58–72: the `while` loop — every delivered `value` (a
`Uint8Array` is always truthy, so every listed chunk is processed) is
decoded with the carried decoder and applied to the transcript. -/
def streamLoop : List Msg → TDState → List (List Nat) → List Msg
  | ms, _, [] => ms
  | ms, st, c :: cs =>
    streamLoop (applyChunk ms (decodeChunk st c).2) (decodeChunk st c).1 cs

/-! ### `send` and `cancel` -/

/-- How the byte stream of a successful response terminates: natural end
of stream (`read` resolves with `done`), an abort (the pending `read`
rejects with an `AbortError` after the listed chunks were delivered —
what `cancel()` causes mid-stream), or some other exception carrying a
message. -/
inductive StreamEnd where
  | eos : StreamEnd
  | aborted : StreamEnd
  | failed (msg : String) : StreamEnd
deriving DecidableEq, Repr

/-- Observable behaviour of the network for one `send`: either `fetch`
itself rejects (`isAbort` tells whether the rejection is an
`AbortError`), or it resolves to a response with an `ok` flag, a
`status`, a body or not, and — when the body is read — a list of
delivered byte chunks followed by a `StreamEnd`. -/
inductive FetchOutcome where
  | reject (isAbort : Bool) (msg : String) : FetchOutcome
  | response (ok : Bool) (status : Nat) (hasBody : Bool)
      (chunks : List (List Nat)) (fin : StreamEnd) : FetchOutcome
deriving DecidableEq, Repr

/-- Lines 30–82: `send`.  Returns the resulting state and whether an
HTTP request was issued.
Guard: `if (!canSend) return`.  Then: clear the error, append the user
entry (raw `input`) and an empty assistant entry, clear the input, set
the abort ref and `isSending`.  The `try` block issues the request:
a non-ok response or a missing body throws `Error("HTTP " + status)`;
otherwise each delivered chunk is decoded and applied by the
`setMessages` updater.  The `catch` swallows `AbortError` and surfaces
any other message via `setError`; the `finally` always clears
`isSending` and the abort ref. -/
def send (s : AppState) (env : FetchOutcome) : AppState × Bool :=
  if ¬ canSend s then (s, false)
  else
    let s1 : AppState :=
      { s with error := ""
               messages := s.messages ++ [⟨"user", s.input⟩, ⟨"assistant", ""⟩]
               input := ""
               abortActive := true
               isSending := true }
    let s2 : AppState :=
      match env with
      | .reject isAbort msg => if isAbort then s1 else { s1 with error := msg }
      | .response ok status hasBody chunks fin =>
        if ¬ ok ∨ ¬ hasBody then { s1 with error := "HTTP " ++ toString status }
        else
          let s1' := { s1 with messages := streamLoop s1.messages TDState.init chunks }
          match fin with
          | .eos => s1'
          | .aborted => s1'
          | .failed msg => { s1' with error := msg }
    ({ s2 with isSending := false, abortActive := false }, true)

/-- Lines 84–86: `cancel()` — `abortRef.current?.abort()`.  It does not
touch any React state; its only effect is to signal the active
controller, which makes the in-flight `send` take the `aborted` /
`AbortError` paths modelled in `FetchOutcome`.  Returns whether a
controller was signalled. -/
def cancel (s : AppState) : AppState × Bool := (s, s.abortActive)

/-! ### `resetChat` -/

/-- Observable behaviour of the network for one `resetChat`: the `/reset`
POST resolves with an `ok` flag and a `status`, or rejects with a
transport error message. -/
inductive ResetOutcome where
  | response (ok : Bool) (status : Nat) : ResetOutcome
  | netError (msg : String) : ResetOutcome
deriving DecidableEq, Repr

/-- Line 104: the confirmation entry installed on a successful reset. -/
def resetMessage : Msg := ⟨"assistant", "🧹 Chat history cleared. Fresh start!"⟩

/-- Lines 96–109: `resetChat` — clear the error, POST `/reset`; on an
ok response replace the whole transcript by `resetMessage`; a non-ok
response throws `Error("HTTP " + status)` and a transport failure
rejects, both caught and surfaced via `setError`, leaving the transcript
untouched. -/
def resetChat (s : AppState) (env : ResetOutcome) : AppState :=
  let s1 : AppState := { s with error := "" }
  match env with
  | .response ok status =>
    if ok then { s1 with messages := [resetMessage] }
    else { s1 with error := "HTTP " ++ toString status }
  | .netError msg => { s1 with error := msg }

/-! ### `useLocalStorage` (lines 205–221) -/

/-- The browser localStorage for our purposes: a partial map from keys
to stored strings.  The raw operations take a `fails` flag modelling the
storage layer throwing (e.g. quota or privacy mode); they return
`Except` so that the swallowing of those errors is visible. -/
def rawGetItem (fails : Bool) (store : String → Option String)
    (key : String) : Except String (Option String) :=
  if fails then .error "storage error" else .ok (store key)

/-- Raw `localStorage.setItem`. -/
def rawSetItem (fails : Bool) (store : String → Option String)
    (key val : String) : Except String (String → Option String) :=
  if fails then .error "storage error"
  else .ok fun k => if k = key then some val else store k

/-- Raw `localStorage.removeItem`. -/
def rawRemoveItem (fails : Bool) (store : String → Option String)
    (key : String) : Except String (String → Option String) :=
  if fails then .error "storage error"
  else .ok fun k => if k = key then none else store k

/-- Lines 206–213: the lazy `useState` initialiser — `getItem` inside
`try`, falling back to `initialValue` when the key is absent or the
storage layer throws. -/
def loadSetting (fails : Bool) (store : String → Option String)
    (key initial : String) : String :=
  match rawGetItem fails store key with
  | .error _ => initial
  | .ok (some v) => v
  | .ok none => initial

/-- Lines 214–219: the persisting effect — an empty value (the model of
`undefined`, `null` and `""`, the values of type string being only the
latter) removes the key, a non-empty value is stored; either way a
storage error is swallowed and leaves the persisted map unchanged. -/
def persistSetting (fails : Bool) (store : String → Option String)
    (key val : String) : String → Option String :=
  if val = "" then
    match rawRemoveItem fails store key with
    | .error _ => store
    | .ok st => st
  else
    match rawSetItem fails store key val with
    | .error _ => store
    | .ok st => st

/-! ### UTF-8 encoding (for stating the decoder claims) -/

/-- The UTF-8 encoding of a Unicode scalar value, written with `Nat`
division and remainder (`v >>> 6 = v / 64`, `v AND 0x3F = v % 64`,
and so on); this mirrors `String.utf8EncodeChar` of the Lean library
and the UTF-8 section of the Encoding Standard. -/
def utf8EncodeNat (v : Nat) : List Nat :=
  if v < 0x80 then [v]
  else if v < 0x800 then [0xC0 + v / 64, 0x80 + v % 64]
  else if v < 0x10000 then
    [0xE0 + v / 4096, 0x80 + v / 64 % 64, 0x80 + v % 64]
  else
    [0xF0 + v / 262144, 0x80 + v / 4096 % 64, 0x80 + v / 64 % 64, 0x80 + v % 64]

/-! ## Helper lemmas -/

/-- A string has length zero exactly when it is empty. -/
lemma string_length_eq_zero_iff (s : String) : s.length = 0 ↔ s = "" := by
  cases s with
  | mk d => simp [String.length, String.ext_iff]

/-- The `setMessages` updater of the streaming loop rewrites exactly the
last entry, whatever it is, appending the chunk to its content. -/
lemma applyChunk_concat (ms : List Msg) (last : Msg) (chunk : String) :
    applyChunk (ms ++ [last]) chunk
      = ms ++ [⟨"assistant", last.content ++ chunk⟩] := by
  simp [applyChunk, List.getLast?_concat, List.dropLast_concat]

/-- Running the streaming loop over a transcript ending in an assistant
entry appends the concatenation of the decoded fragments, in arrival
order, to that entry and touches nothing else. -/
lemma streamLoop_concat (cs : List (List Nat)) (ms : List Msg)
    (cnt : String) (st : TDState) :
    streamLoop (ms ++ [⟨"assistant", cnt⟩]) st cs
      = ms ++ [⟨"assistant", cnt ++ concatAll (fragments st cs)⟩] := by
  induction cs generalizing cnt st with
  | nil => simp [streamLoop, fragments, concatAll]
  | cons c cs ih =>
    simp only [streamLoop, fragments, concatAll, applyChunk_concat, ih,
      String.append_assoc]

/-- Prepending a string to a list of code points rendered as a string. -/
lemma string_mk_append (a b : List Char) :
    String.mk a ++ String.mk b = String.mk (a ++ b) := rfl

/-- Decoding distributes over concatenation of byte lists: the state is
threaded through and the outputs concatenate. -/
lemma decodeBytes_append (xs ys : List Nat) (st : TDState) :
    decodeBytes st (xs ++ ys)
      = ((decodeBytes (decodeBytes st xs).1 ys).1,
         (decodeBytes st xs).2 ++ (decodeBytes (decodeBytes st xs).1 ys).2) := by
  induction xs generalizing st with
  | nil => simp [decodeBytes]
  | cons b rest ih => simp [decodeBytes, ih]

/-- The concatenated text of the fragments of two chunks is the text of
decoding the concatenated bytes: nothing is lost or garbled at the chunk
boundary. -/
lemma fragments_pair (st : TDState) (p s : List Nat) :
    concatAll (fragments st [p, s])
      = String.mk (((decodeBytes st (p ++ s)).2).map Char.ofNat) := by
  simp [fragments, concatAll, decodeChunk, decodeBytes_append,
    String.append_empty, string_mk_append]

/-- Decoding the UTF-8 encoding of a two-byte scalar value (0x80–0x7FF)
emits exactly that value.  (Such a value is never U+FEFF, so the BOM
flag only flips to true.) -/
lemma decode_encode₂ (bo : Bool) (v : Nat) (h1 : 0x80 ≤ v) (h2 : v < 0x800) :
    decodeBytes ⟨DecState.init, bo⟩ (utf8EncodeNat v) = (⟨DecState.init, true⟩, [v]) := by
  have henc : utf8EncodeNat v = [0xC0 + v / 64, 0x80 + v % 64] := by
    unfold utf8EncodeNat
    rw [if_neg (by omega), if_pos (by omega)]
  have hA : ¬(0xC0 + v / 64 ≤ 0x7F) := by omega
  have hB : ¬(0xC0 + v / 64 ≤ 0xC1) := by omega
  have hC : 0xC0 + v / 64 ≤ 0xDF := by omega
  have hD : ¬(0x80 + v % 64 < 0x80) := by omega
  have hE : ¬(0xBF < 0x80 + v % 64) := by omega
  have hv2 : v / 64 * 64 + v % 64 = v := by omega
  have hfe : v ≠ 0xFEFF := by omega
  cases bo <;>
    simp [henc, decodeBytes, utf8Step, utf8Start, bomFilter, DecState.init,
      hA, hB, hC, hD, hE, hv2, hfe]

/-- Decoding the UTF-8 encoding of a three-byte scalar value
(0x800–0xFFFF, excluding surrogates) emits exactly that value, assuming
a U+FEFF is not the first code point of the stream. -/
lemma decode_encode₃ (bo : Bool) (v : Nat) (h1 : 0x800 ≤ v) (h2 : v < 0x10000)
    (hs : v < 0xD800 ∨ 0xE000 ≤ v) (hbom : bo = false → v ≠ 0xFEFF) :
    decodeBytes ⟨DecState.init, bo⟩ (utf8EncodeNat v) = (⟨DecState.init, true⟩, [v]) := by
  have henc : utf8EncodeNat v = [0xE0 + v / 4096, 0x80 + v / 64 % 64, 0x80 + v % 64] := by
    unfold utf8EncodeNat
    rw [if_neg (by omega), if_neg (by omega), if_pos (by omega)]
  have hA : ¬(0xE0 + v / 4096 ≤ 0x7F) := by omega
  have hB : ¬(0xE0 + v / 4096 ≤ 0xC1) := by omega
  have hC : ¬(0xE0 + v / 4096 ≤ 0xDF) := by omega
  have hD : 0xE0 + v / 4096 ≤ 0xEF := by omega
  have hcp3 : v / 64 * 64 + v % 64 = v := by omega
  have hD3 : ¬(0x80 + v % 64 < 0x80) := by omega
  have hE3 : ¬(0xBF < 0x80 + v % 64) := by omega
  by_cases hE0 : v < 0x1000
  · have hq : v / 4096 = 0 := by omega
    have hR1 : ¬(0x80 + v / 64 < 0xA0) := by omega
    have hR2 : ¬(0xBF < 0x80 + v / 64) := by omega
    have hm : v / 64 % 64 = v / 64 := by omega
    have hfe2 : ¬(v = 0xFEFF) := by omega
    cases bo <;>
      simp [henc, decodeBytes, utf8Step, utf8Start, bomFilter, DecState.init,
        hA, hB, hC, hD, hq, hR1, hR2, hm, hcp3, hD3, hE3, hfe2]
  · by_cases hED : v / 4096 = 13
    · have hR1 : ¬(0x80 + v / 64 % 64 < 0x80) := by omega
      have hR2 : ¬(0x9F < 0x80 + v / 64 % 64) := by omega
      have hm : 13 * 64 + v / 64 % 64 = v / 64 := by omega
      have hm2 : 832 + v / 64 % 64 = v / 64 := by omega
      have hfe2 : ¬(v = 0xFEFF) := by omega
      cases bo <;>
        simp [henc, decodeBytes, utf8Step, utf8Start, bomFilter, DecState.init,
          hA, hB, hC, hD, hED, hR1, hR2, hm, hm2, hcp3, hD3, hE3, hfe2]
    · have hne1 : ¬(0xE0 + v / 4096 = 0xE0) := by omega
      have hq0 : ¬(v / 4096 = 0) := by omega
      have hne2 : ¬(0xE0 + v / 4096 = 0xED) := by omega
      have hR1 : ¬(0x80 + v / 64 % 64 < 0x80) := by omega
      have hR2 : ¬(0xBF < 0x80 + v / 64 % 64) := by omega
      have hcp2 : v / 4096 * 64 + v / 64 % 64 = v / 64 := by omega
      cases bo with
      | false =>
        have hfe2 : ¬(v = 0xFEFF) := hbom rfl
        simp [henc, decodeBytes, utf8Step, utf8Start, bomFilter, DecState.init,
          hA, hB, hC, hD, hne1, hq0, hne2, hR1, hR2, hcp2, hcp3, hD3, hE3, hfe2]
      | true =>
        simp [henc, decodeBytes, utf8Step, utf8Start, bomFilter, DecState.init,
          hA, hB, hC, hD, hne1, hq0, hne2, hR1, hR2, hcp2, hcp3, hD3, hE3]

/-- Decoding the UTF-8 encoding of a four-byte scalar value
(0x10000–0x10FFFF) emits exactly that value. -/
lemma decode_encode₄ (bo : Bool) (v : Nat) (h1 : 0x10000 ≤ v) (h2 : v < 0x110000) :
    decodeBytes ⟨DecState.init, bo⟩ (utf8EncodeNat v) = (⟨DecState.init, true⟩, [v]) := by
  have henc : utf8EncodeNat v
      = [0xF0 + v / 262144, 0x80 + v / 4096 % 64, 0x80 + v / 64 % 64, 0x80 + v % 64] := by
    unfold utf8EncodeNat
    rw [if_neg (by omega), if_neg (by omega), if_neg (by omega)]
  have hA : ¬(0xF0 + v / 262144 ≤ 0x7F) := by omega
  have hB : ¬(0xF0 + v / 262144 ≤ 0xC1) := by omega
  have hC : ¬(0xF0 + v / 262144 ≤ 0xDF) := by omega
  have hD : ¬(0xF0 + v / 262144 ≤ 0xEF) := by omega
  have hE : 0xF0 + v / 262144 ≤ 0xF4 := by omega
  have hcp3 : v / 4096 * 64 + v / 64 % 64 = v / 64 := by omega
  have hcp4 : v / 64 * 64 + v % 64 = v := by omega
  have hR31 : ¬(0x80 + v / 64 % 64 < 0x80) := by omega
  have hR32 : ¬(0xBF < 0x80 + v / 64 % 64) := by omega
  have hD4 : ¬(0x80 + v % 64 < 0x80) := by omega
  have hE4 : ¬(0xBF < 0x80 + v % 64) := by omega
  have hfe2 : ¬(v = 0xFEFF) := by omega
  by_cases hF0 : v < 0x40000
  · have hq : v / 262144 = 0 := by omega
    have hm : v / 4096 % 64 = v / 4096 := by omega
    have hR1 : ¬(0x80 + v / 4096 < 0x90) := by omega
    have hR2 : ¬(0xBF < 0x80 + v / 4096) := by omega
    cases bo <;>
      simp [henc, decodeBytes, utf8Step, utf8Start, bomFilter, DecState.init,
        hA, hB, hC, hD, hE, hq, hm, hR1, hR2, hcp3, hcp4, hR31, hR32, hD4, hE4, hfe2]
  · by_cases hF4 : v / 262144 = 4
    · have hm : 4 * 64 + v / 4096 % 64 = v / 4096 := by omega
      have hm2 : 256 + v / 4096 % 64 = v / 4096 := by omega
      have hR1 : ¬(0x80 + v / 4096 % 64 < 0x80) := by omega
      have hR2 : ¬(0x8F < 0x80 + v / 4096 % 64) := by omega
      cases bo <;>
        simp [henc, decodeBytes, utf8Step, utf8Start, bomFilter, DecState.init,
          hA, hB, hC, hD, hE, hF4, hm, hm2, hR1, hR2, hcp3, hcp4, hR31, hR32, hD4, hE4, hfe2]
    · have hne1 : ¬(0xF0 + v / 262144 = 0xF0) := by omega
      have hq0 : ¬(v / 262144 = 0) := by omega
      have hne2 : ¬(0xF0 + v / 262144 = 0xF4) := by omega
      have hR1 : ¬(0x80 + v / 4096 % 64 < 0x80) := by omega
      have hR2 : ¬(0xBF < 0x80 + v / 4096 % 64) := by omega
      have hcp2 : v / 262144 * 64 + v / 4096 % 64 = v / 4096 := by omega
      cases bo <;>
        simp [henc, decodeBytes, utf8Step, utf8Start, bomFilter, DecState.init,
          hA, hB, hC, hD, hE, hne1, hq0, hne2, hR1, hR2, hcp2, hcp3, hcp4,
          hR31, hR32, hD4, hE4, hfe2]

/-- Decoding the UTF-8 encoding of any multi-byte scalar value emits
exactly that value, provided a U+FEFF is not the first code point of
the stream (where the decoder removes it as a byte-order mark). -/
lemma decode_encode (bo : Bool) (v : Nat) (h1 : 0x80 ≤ v) (h2 : v < 0x110000)
    (hs : v < 0xD800 ∨ 0xE000 ≤ v) (hbom : bo = false → v ≠ 0xFEFF) :
    decodeBytes ⟨DecState.init, bo⟩ (utf8EncodeNat v) = (⟨DecState.init, true⟩, [v]) := by
  rcases Nat.lt_or_ge v 0x800 with h | h
  · exact decode_encode₂ bo v h1 h
  · rcases Nat.lt_or_ge v 0x10000 with h3 | h3
    · exact decode_encode₃ bo v h h3 hs hbom
    · exact decode_encode₄ bo v h3 h2

/-! ## The claims -/

/-- Claim C2: `canSend` is false exactly when the endpoint base is
empty, or the token is empty, or the input trimmed of whitespace is
empty, or a send is already in progress; in every other state it is
true. -/
theorem canSend_false_iff (s : AppState) :
    canSend s = false ↔
      s.apiBase = "" ∨ s.token = "" ∨ trimStr s.input = "" ∨ s.isSending = true := by
  rw [← Bool.not_eq_true]
  simp only [canSend, Bool.and_eq_true, bne_iff_ne, ne_eq, decide_eq_true_eq,
    Bool.not_eq_true', Nat.pos_iff_ne_zero, string_length_eq_zero_iff]
  cases s.isSending <;> tauto

/-- Claim C3: when `canSend` is false, `send` is a no-op — the whole
state (transcript, input, error, sending flag, abort ref) is returned
unchanged and no HTTP request is issued (the `Bool` component is
false). -/
theorem send_noop_of_not_canSend (s : AppState) (env : FetchOutcome)
    (h : canSend s = false) : send s env = (s, false) := by
  simp [send, h]

/-- Witness for C3: with an empty token, `send` leaves the state alone
and issues no request. -/
theorem send_noop_of_not_canSend_witness :
    canSend ⟨"http://x", "", "anything", [], false, "", false⟩ = false ∧
    send ⟨"http://x", "", "anything", [], false, "", false⟩
        (.response true 200 true [[72]] .eos)
      = (⟨"http://x", "", "anything", [], false, "", false⟩, false) :=
  ⟨by decide, send_noop_of_not_canSend _ _ (by decide)⟩

/-- Claim C4: on every path through a `send` that passes the guard —
rejection of the fetch, non-ok status or missing body, end of stream,
abort, or any other stream error — the final state has the sending flag
cleared and the abort ref cleared. -/
theorem send_clears_sending (s : AppState) (env : FetchOutcome)
    (h : canSend s = true) :
    (send s env).1.isSending = false ∧ (send s env).1.abortActive = false := by
  simp [send, h]

/-- Witness for C4: a state that passes the guard, on a stream that
fails mid-way, ends with the sending flag and abort ref cleared. -/
theorem send_clears_sending_witness :
    canSend ⟨"http://x", "t", "hi", [], false, "", false⟩ = true ∧
    (send ⟨"http://x", "t", "hi", [], false, "", false⟩
        (.response true 200 true [[72]] (.failed "boom"))).1.isSending = false ∧
    (send ⟨"http://x", "t", "hi", [], false, "", false⟩
        (.response true 200 true [[72]] (.failed "boom"))).1.abortActive = false :=
  ⟨by decide, send_clears_sending _ _ (by decide)⟩

/-- Claim C1: a `send` whose stream delivers byte chunks and ends
normally appends exactly a user entry with the prompt and one assistant
entry whose content is the concatenation of the decoded text fragments
in arrival order — nothing dropped, duplicated, or reordered. -/
theorem send_concat_of_stream (s : AppState) (status : Nat)
    (chunks : List (List Nat)) (h : canSend s = true) :
    (send s (.response true status true chunks .eos)).1.messages
      = s.messages ++ [⟨"user", s.input⟩,
          ⟨"assistant", concatAll (fragments TDState.init chunks)⟩] := by
  have hsl := streamLoop_concat chunks (s.messages ++ [⟨"user", s.input⟩])
    "" TDState.init
  simp only [List.append_assoc, List.cons_append, List.nil_append,
    String.empty_append] at hsl
  simp [send, h, hsl]

/-- Witness for C1: chunks "Hi" and " there" end as one assistant entry
"Hi there". -/
theorem send_concat_of_stream_witness :
    canSend ⟨"http://x", "t", "hello", [], false, "", false⟩ = true ∧
    (send ⟨"http://x", "t", "hello", [], false, "", false⟩
        (.response true 200 true
          [[72, 105], [32, 116, 104, 101, 114, 101]] .eos)).1.messages
      = [⟨"user", "hello"⟩, ⟨"assistant", "Hi there"⟩] :=
  ⟨by decide, by
    have h := send_concat_of_stream
      ⟨"http://x", "t", "hello", [], false, "", false⟩ 200
      [[72, 105], [32, 116, 104, 101, 114, 101]] (by decide)
    simpa using h⟩

/-- Claim C5: a `send` aborted mid-stream (the pending read rejects with
an `AbortError` after the listed chunks) surfaces no error (the
exception is swallowed), keeps exactly the fragments appended before the
cancellation with no rollback, and ends with the sending flag false. -/
theorem send_abort_mid_stream (s : AppState) (status : Nat)
    (chunks : List (List Nat)) (h : canSend s = true) :
    (send s (.response true status true chunks .aborted)).1.error = "" ∧
    (send s (.response true status true chunks .aborted)).1.messages
      = s.messages ++ [⟨"user", s.input⟩,
          ⟨"assistant", concatAll (fragments TDState.init chunks)⟩] ∧
    (send s (.response true status true chunks .aborted)).1.isSending = false := by
  have hsl := streamLoop_concat chunks (s.messages ++ [⟨"user", s.input⟩])
    "" TDState.init
  simp only [List.append_assoc, List.cons_append, List.nil_append,
    String.empty_append] at hsl
  simp [send, h, hsl]

/-- Witness for C5: cancelling after the chunk "Hi" leaves "Hi" in the
transcript, no error, and the sending flag false. -/
theorem send_abort_mid_stream_witness :
    canSend ⟨"http://x", "t", "hello", [], false, "old error", false⟩ = true ∧
    ((send ⟨"http://x", "t", "hello", [], false, "old error", false⟩
        (.response true 200 true [[72, 105]] .aborted)).1.error = "" ∧
     (send ⟨"http://x", "t", "hello", [], false, "old error", false⟩
        (.response true 200 true [[72, 105]] .aborted)).1.messages
       = [⟨"user", "hello"⟩, ⟨"assistant", "Hi"⟩] ∧
     (send ⟨"http://x", "t", "hello", [], false, "old error", false⟩
        (.response true 200 true [[72, 105]] .aborted)).1.isSending = false) :=
  ⟨by decide, by
    have h := send_abort_mid_stream
      ⟨"http://x", "t", "hello", [], false, "old error", false⟩ 200
      [[72, 105]] (by decide)
    simpa using h⟩

/-- Claim C6: `resetChat` replaces the transcript by exactly the single
confirmation entry when the POST to `/reset` returns ok (also clearing
the error), and on a non-ok status or a network error leaves the
transcript unchanged and surfaces the failure detail. -/
theorem resetChat_cases (s : AppState) (env : ResetOutcome) :
    (∀ status, env = .response true status →
        (resetChat s env).messages = [resetMessage] ∧
        (resetChat s env).error = "") ∧
    (∀ status, env = .response false status →
        (resetChat s env).messages = s.messages ∧
        (resetChat s env).error = "HTTP " ++ toString status) ∧
    (∀ msg, env = .netError msg →
        (resetChat s env).messages = s.messages ∧
        (resetChat s env).error = msg) := by
  refine ⟨?_, ?_, ?_⟩ <;> intro x hx <;> subst hx <;> simp [resetChat]

/-- Witness for C6: a reset on a transcript of two entries — an ok
response replaces it by the confirmation entry, an HTTP 500 leaves it
unchanged with the detail surfaced. -/
theorem resetChat_cases_witness :
    ((resetChat ⟨"http://x", "t", "", [⟨"user", "q"⟩, ⟨"assistant", "a"⟩],
        false, "", false⟩ (.response true 200)).messages = [resetMessage] ∧
     (resetChat ⟨"http://x", "t", "", [⟨"user", "q"⟩, ⟨"assistant", "a"⟩],
        false, "", false⟩ (.response true 200)).error = "") ∧
    ((resetChat ⟨"http://x", "t", "", [⟨"user", "q"⟩, ⟨"assistant", "a"⟩],
        false, "", false⟩ (.response false 500)).messages
       = [⟨"user", "q"⟩, ⟨"assistant", "a"⟩] ∧
     (resetChat ⟨"http://x", "t", "", [⟨"user", "q"⟩, ⟨"assistant", "a"⟩],
        false, "", false⟩ (.response false 500)).error
       = "HTTP " ++ toString 500) :=
  ⟨(resetChat_cases _ (.response true 200)).1 200 rfl,
   (resetChat_cases _ (.response false 500)).2.1 500 rfl⟩

/-- Claim C8: persisting a non-empty value stores it under the key,
persisting an empty value removes the key, and storage-layer errors are
swallowed — `persistSetting` returns (leaving the map unchanged) and
`loadSetting` returns, falling back to the default, instead of
propagating the error. -/
theorem useLocalStorage_cases (store : String → Option String)
    (key val initial : String) :
    (val ≠ "" → persistSetting false store key val key = some val) ∧
    (val = "" → persistSetting false store key val key = none) ∧
    persistSetting true store key val = store ∧
    loadSetting true store key initial = initial := by
  refine ⟨?_, ?_, ?_, ?_⟩
  · intro hv
    simp [persistSetting, rawSetItem, hv]
  · intro hv
    simp [persistSetting, rawRemoveItem, hv]
  · by_cases hv : val = "" <;> simp [persistSetting, rawRemoveItem, rawSetItem, hv]
  · simp [loadSetting, rawGetItem]

/-- Witness for C8: storing "http://x" persists it, storing "" removes
the key. -/
theorem useLocalStorage_cases_witness :
    persistSetting false (fun _ => none) "vc_apiBase" "http://x" "vc_apiBase"
      = some "http://x" ∧
    persistSetting false (fun _ => some "old") "vc_apiBase" "" "vc_apiBase"
      = none :=
  ⟨(useLocalStorage_cases (fun _ => none) "vc_apiBase" "http://x" "d").1
      (by decide),
   (useLocalStorage_cases (fun _ => some "old") "vc_apiBase" "" "d").2.1 rfl⟩

/-- Claim C9: while a stream is active the target entry is append-only —
each processed chunk turns content `cnt` into `cnt ++ t` for the decoded
fragment `t` (so the previous content is a prefix, proper exactly when
the fragment is non-empty, and an empty fragment is a no-op append) —
and the final content lists the fragments in exactly arrival order. -/
theorem stream_append_only (ms : List Msg) (cnt t : String) (st : TDState)
    (cs : List (List Nat)) :
    (applyChunk (ms ++ [⟨"assistant", cnt⟩]) t = ms ++ [⟨"assistant", cnt ++ t⟩]) ∧
    (t ≠ "" → cnt.length < (cnt ++ t).length) ∧
    (t = "" → cnt ++ t = cnt) ∧
    (streamLoop (ms ++ [⟨"assistant", cnt⟩]) st cs
       = ms ++ [⟨"assistant", cnt ++ concatAll (fragments st cs)⟩]) := by
  refine ⟨applyChunk_concat ms ⟨"assistant", cnt⟩ t, ?_, ?_,
    streamLoop_concat cs ms cnt st⟩
  · intro ht
    have : t.length ≠ 0 := fun h => ht ((string_length_eq_zero_iff t).1 h)
    rw [String.length_append]
    omega
  · intro ht
    rw [ht, String.append_empty]

/-- Witness for C9: appending the fragment "x" strictly grows the
content, appending the empty fragment is a no-op. -/
theorem stream_append_only_witness :
    ("a" : String).length < (("a" : String) ++ "x").length ∧
    (("a" : String) ++ "" = "a") :=
  ⟨(stream_append_only [] "a" "x" TDState.init []).2.1 (by decide),
   (stream_append_only [] "a" "" TDState.init []).2.2.1 rfl⟩

/-- Claim C10: the updater appends each decoded chunk to whatever entry
is last in the transcript when the chunk is applied (not to a fixed
handle); `resetChat` ignores the sending flag entirely; hence after a
successful reset replaces the transcript by the confirmation entry, a
subsequent chunk of the still-active stream is appended to that new
entry. -/
theorem chunk_targets_current_last (ms : List Msg) (e : Msg) (t : String)
    (b : Bool) (s : AppState) (env : ResetOutcome) (status : Nat) :
    (applyChunk (ms ++ [e]) t = ms ++ [⟨"assistant", e.content ++ t⟩]) ∧
    (resetChat { s with isSending := b } env
       = { resetChat s env with isSending := b }) ∧
    ((resetChat s (.response true status)).messages = [resetMessage]) ∧
    (applyChunk [resetMessage] t
       = [⟨"assistant", resetMessage.content ++ t⟩]) := by
  refine ⟨applyChunk_concat ms e t, ?_, by simp [resetChat], ?_⟩
  · cases env with
    | response ok status => by_cases h : ok = true <;> simp [resetChat, h]
    | netError msg => simp [resetChat]
  · have h := applyChunk_concat [] resetMessage t
    simpa using h

/-- Claim C7 (amended): a multi-byte character whose encoding is split
across two consecutive chunks decodes — once both chunks are processed —
to exactly that character, the partial bytes being carried across the
boundary, with no replacement or garbled character; except that a
U+FEFF standing first in the stream is removed as a byte-order mark
(the `bo` flag is the BOM-seen state at the boundary: `false` at stream
start). -/
theorem utf8_split_decodes_correctly (c : Char) (bo : Bool) (i : Nat)
    (hmb : 0x80 ≤ c.toNat) (hbom : bo = false → c.toNat ≠ 0xFEFF)
    (h0 : 0 < i) (hi : i < (utf8EncodeNat c.toNat).length) :
    concatAll (fragments ⟨DecState.init, bo⟩
        [(utf8EncodeNat c.toNat).take i, (utf8EncodeNat c.toNat).drop i])
      = String.mk [c] := by
  have hval : c.toNat < 0xD800 ∨ (0xDFFF < c.toNat ∧ c.toNat < 0x110000) := c.valid
  have h2 : c.toNat < 0x110000 := by omega
  have hs : c.toNat < 0xD800 ∨ 0xE000 ≤ c.toNat := by omega
  rw [fragments_pair, List.take_append_drop,
    decode_encode bo c.toNat hmb h2 hs hbom]
  simp [Char.ofNat_toNat]

/-- Witness for C7: the two-byte character é split into its two bytes
decodes to exactly "é". -/
theorem utf8_split_decodes_correctly_witness :
    (0x80 ≤ ('é').toNat ∧ 0 < 1 ∧ 1 < (utf8EncodeNat ('é').toNat).length) ∧
    concatAll (fragments ⟨DecState.init, false⟩
        [(utf8EncodeNat ('é').toNat).take 1, (utf8EncodeNat ('é').toNat).drop 1])
      = String.mk ['é'] :=
  ⟨⟨by decide, by decide, by decide⟩,
   utf8_split_decodes_correctly 'é' false 1 (by decide) (fun _ => by decide)
     (by decide) (by decide)⟩

/-- Counterexample to C7 as stated: the multi-byte character U+FEFF,
split after two of its three bytes at the start of the stream, decodes
to the empty string — the decoder removes it as a byte-order mark — so
the appended text does not contain the character. -/
theorem utf8_split_bom_counterexample :
    0x80 ≤ (Char.ofNat 0xFEFF).toNat ∧
    (utf8EncodeNat (Char.ofNat 0xFEFF).toNat).take 2 = [0xEF, 0xBB] ∧
    (utf8EncodeNat (Char.ofNat 0xFEFF).toNat).drop 2 = [0xBF] ∧
    concatAll (fragments TDState.init
        [(utf8EncodeNat (Char.ofNat 0xFEFF).toNat).take 2,
         (utf8EncodeNat (Char.ofNat 0xFEFF).toNat).drop 2]) = "" ∧
    ("" : String) ≠ String.mk [Char.ofNat 0xFEFF] := by
  decide
